import Mathlib

/-!
# Summary relay backend (`backend/main.go`)

A shallow embedding of `summarizeHandler` and `callGeminiAPI`, together with a
model of the parts of Go's `encoding/json` and `net/http` that the two
functions call.

* `GoJson` models `encoding/json`: the scanner of `scanner.go` as a step
  function over the characters of the input (`readValue` is what one call of
  `Decoder.Decode` reads), `unquoteBytes`, the storing of a decoded value into
  a Go string, struct or slice, and `appendString` of the encoder. The
  encoder is that of Go 1.22 and later, which writes `\b` and `\f` for the
  characters 8 and 12; earlier releases write `\u0008` and `\u000c`, which
  decode to the same characters.
* `Backend` is the program: the handler writes to a `ResponseWriter` whose
  state is passed along, the network is a parameter of type `Transport`, and
  an `Outcome` records the reply, what was logged and the calls of
  `http.Post`.

Text is modelled as `String` (a sequence of Unicode scalar values), so the
development covers request and reply bodies that are valid UTF-8, read in
full. The texts of the errors of the libraries are not modelled, nor are the
headers that the server adds on its own (`Date`, `Content-Length`).
-/

namespace GoJson

/-- A decoded JSON value. Object members keep their order and their duplicates,
    because `encoding/json` processes them one by one. -/
inductive Json where
  | null
  | bool (b : Bool)
  | num (raw : String)
  | str (s : String)
  | arr (elems : List Json)
  | obj (members : List (String × Json))

/-- The error kinds of `encoding/json` that the program can observe:
    `io.EOF`, `io.ErrUnexpectedEOF`, `*json.SyntaxError` and
    `*json.UnmarshalTypeError`. Their texts are not modelled. -/
inductive JsonError where
  | eof
  | unexpectedEOF
  | malformed
  | typeMismatch
  deriving DecidableEq

/-- Whitespace as in `isSpace` of `scanner.go`. -/
def isSpace (c : Char) : Bool :=
  c = ' ' || c = '\t' || c = '\r' || c = '\n'

/-- A decimal digit. -/
def isDigit (c : Char) : Bool :=
  decide ('0'.toNat ≤ c.toNat ∧ c.toNat ≤ '9'.toNat)

/-- The value of a hexadecimal digit, as in `getu4` of `decode.go`. -/
def hexVal (c : Char) : Option Nat :=
  if '0'.toNat ≤ c.toNat ∧ c.toNat ≤ '9'.toNat then some (c.toNat - '0'.toNat)
  else if 'a'.toNat ≤ c.toNat ∧ c.toNat ≤ 'f'.toNat then some (c.toNat - 'a'.toNat + 10)
  else if 'A'.toNat ≤ c.toNat ∧ c.toNat ≤ 'F'.toNat then some (c.toNat - 'A'.toNat + 10)
  else none

/-- A hexadecimal digit, as accepted by `stateInStringEscU` of `scanner.go`. -/
def isHex (c : Char) : Bool := (hexVal c).isSome

/-- The four hexadecimal digits of a `\u` escape, as in `getu4`. -/
def getu4 (a b c d : Char) : Option Nat :=
  match hexVal a, hexVal b, hexVal c, hexVal d with
  | some x, some y, some z, some w => some (((x * 16 + y) * 16 + z) * 16 + w)
  | _, _, _, _ => none

/-- The replacement character U+FFFD (`unicode.ReplacementChar`). -/
def replacementChar : Char := Char.ofNat 0xFFFD

/-- The character a one-letter escape stands for, as in `unquoteBytes`. -/
def unescape (c : Char) : Option Char :=
  if c = '"' ∨ c = '\\' ∨ c = '/' ∨ c = '\'' then some c
  else if c = 'b' then some (Char.ofNat 8)
  else if c = 'f' then some (Char.ofNat 12)
  else if c = 'n' then some '\n'
  else if c = 'r' then some '\r'
  else if c = 't' then some '\t'
  else none

/-- The test `utf16.IsSurrogate`. -/
def isSurrogate (r : Nat) : Bool := decide (0xD800 ≤ r ∧ r < 0xE000)

/-- The function `utf16.DecodeRune`: the code point of a valid surrogate pair. -/
def decodeSurrogates (r1 r2 : Nat) : Option Char :=
  if 0xD800 ≤ r1 ∧ r1 < 0xDC00 ∧ 0xDC00 ≤ r2 ∧ r2 < 0xE000 then
    some (Char.ofNat ((r1 - 0xD800) * 0x400 + (r2 - 0xDC00) + 0x10000))
  else none

/-- The second `\u` escape of a surrogate pair whose first half is `rr`
    (`getu4` on what follows, then `utf16.DecodeRune`): the character of a
    valid pair and the input after it, or the replacement character and the
    input unchanged. -/
def unquotePair (rr : Nat) (rest : List Char) : Char × List Char :=
  match rest with
  | bs :: u :: a :: b :: c :: d :: rest1 =>
    match (if bs = '\\' ∧ u = 'u' then getu4 a b c d else none).bind (decodeSurrogates rr) with
    | some dec => (dec, rest1)
    | none => (replacementChar, rest)
  | _ => (replacementChar, rest)

/-- The case `'u'` of `unquoteBytes`, on the input after `\u`. -/
def unquoteU (rest : List Char) : Option (Char × List Char) :=
  match rest with
  | a :: b :: c :: d :: rest1 =>
    match getu4 a b c d with
    | none => none
    | some rr =>
      if isSurrogate rr then some (unquotePair rr rest1)
      else some (Char.ofNat rr, rest1)
  | _ => none

/-- One round of the loop of `unquoteBytes`: the character decoded at the head
    of the input and the input after it; `none` is its `return` with
    `ok = false`. -/
def unquoteStep (input : List Char) : Option (Char × List Char) :=
  match input with
  | [] => none
  | c :: rest =>
    if c = '\\' then
      match rest with
      | [] => none
      | e :: rest1 =>
        if e = 'u' then unquoteU rest1
        else (unescape e).map (fun x => (x, rest1))
    else if c = '"' ∨ c.toNat < 0x20 then none
    else some (c, rest)

/-- The loop of `unquoteBytes`, run for at most `rounds` rounds. -/
def unquoteLoop : Nat → List Char → Option (List Char)
  | _, [] => some []
  | 0, _ :: _ => none
  | rounds + 1, c :: rest =>
    match unquoteStep (c :: rest) with
    | none => none
    | some (x, rest1) => (unquoteLoop rounds rest1).map (x :: ·)

/-- The contents of a string literal (without the enclosing quotes) decoded as
    in `unquoteBytes` of `decode.go`; `none` is its `ok = false`. Every round
    takes at least one character, so one round per character is enough. -/
def unquote (raw : List Char) : Option (List Char) :=
  unquoteLoop raw.length raw

/-- An open array or object of the value being read. For an object, `key` is
    the key that has been read and still waits for its value. (Go's scanner
    keeps `parseArrayValue`, `parseObjectKey` and `parseObjectValue` on its
    stack; here the frames also hold what has been decoded so far.) -/
inductive Frame where
  | arr (elems : List Json)
  | obj (members : List (String × Json)) (key : Option String)

/-- The step functions of `scanner.go`; a mode that is inside a string or a
    number carries the characters read so far. -/
inductive Mode where
  | beginValue
  | beginValueOrEmpty
  | beginStringOrEmpty
  | beginString
  | inString (raw : List Char)
  | inStringEsc (raw : List Char)
  | inStringEscU (raw : List Char) (seen : Nat)
  | neg (raw : List Char)
  | zero (raw : List Char)
  | int (raw : List Char)
  | dot (raw : List Char)
  | dot0 (raw : List Char)
  | exp (raw : List Char)
  | expSign (raw : List Char)
  | exp0 (raw : List Char)
  | lit (rest : List Char) (v : Json)
  | endValue

/-- The state of reading one JSON value: still reading, finished with the
    value, or stopped at an error. -/
inductive Scan where
  | run (stack : List Frame) (mode : Mode)
  | done (v : Json)
  | fail (e : JsonError)

/-- The constant `maxNestingDepth` of `scanner.go`. -/
def maxNestingDepth : Nat := 10000

/-- The function `pushParseState`: open a new array or object, unless that
    exceeds the nesting limit. -/
def push (stack : List Frame) (f : Frame) (mode : Mode) : Scan :=
  if stack.length + 1 ≤ maxNestingDepth then .run (f :: stack) mode
  else .fail .malformed

/-- A value is complete: hand it to the enclosing array or object, or finish
    when there is none (Go's `stateEndTop`). -/
def deliver (stack : List Frame) (v : Json) : Scan :=
  match stack with
  | [] => .done v
  | .arr es :: rest => .run (.arr (es ++ [v]) :: rest) .endValue
  | .obj ms (some k) :: rest => .run (.obj (ms ++ [(k, v)]) none :: rest) .endValue
  | .obj ms none :: rest =>
    match v with
    | .str k => .run (.obj ms (some k) :: rest) .endValue
    | _ => .fail .malformed

/-- The step `stateEndValue`: after a key, a colon; after a member or an
    element, a comma or the closing bracket. -/
def endValue (stack : List Frame) (c : Char) : Scan :=
  match stack with
  | [] => .fail .malformed
  | f :: rest =>
    if isSpace c then .run stack .endValue
    else
      match f with
      | .obj _ (some _) => if c = ':' then .run stack .beginValue else .fail .malformed
      | .obj ms none =>
        if c = ',' then .run stack .beginString
        else if c = '}' then deliver rest (.obj ms)
        else .fail .malformed
      | .arr es =>
        if c = ',' then .run stack .beginValue
        else if c = ']' then deliver rest (.arr es)
        else .fail .malformed

/-- The step `stateBeginValue`, for a character that is not a space. -/
def beginValue (stack : List Frame) (c : Char) : Scan :=
  if c = '{' then push stack (.obj [] none) .beginStringOrEmpty
  else if c = '[' then push stack (.arr []) .beginValueOrEmpty
  else if c = '"' then .run stack (.inString [])
  else if c = '-' then .run stack (.neg [c])
  else if c = '0' then .run stack (.zero [c])
  else if c = 't' then .run stack (.lit ['r', 'u', 'e'] (.bool true))
  else if c = 'f' then .run stack (.lit ['a', 'l', 's', 'e'] (.bool false))
  else if c = 'n' then .run stack (.lit ['u', 'l', 'l'] .null)
  else if isDigit c then .run stack (.int [c])
  else .fail .malformed

/-- A number literal ends at `c`: the number is delivered and `c` is read by
    `stateEndValue` (at the top level the value is finished, whatever `c` is). -/
def endNumber (stack : List Frame) (raw : List Char) (c : Char) : Scan :=
  match deliver stack (.num (String.mk raw)) with
  | .run stack1 _ => endValue stack1 c
  | other => other

/-- One step of the scanner on the character `c`. -/
def step (s : Scan) (c : Char) : Scan :=
  match s with
  | .done v => .done v
  | .fail e => .fail e
  | .run stack mode =>
    match mode with
    | .beginValue => if isSpace c then s else beginValue stack c
    | .beginValueOrEmpty =>
      if isSpace c then s
      else if c = ']' then endValue stack c
      else beginValue stack c
    | .beginStringOrEmpty =>
      if isSpace c then s
      else if c = '}' then
        match stack with
        | .obj ms _ :: rest => deliver rest (.obj ms)
        | _ => .fail .malformed
      else if c = '"' then .run stack (.inString [])
      else .fail .malformed
    | .beginString =>
      if isSpace c then s
      else if c = '"' then .run stack (.inString [])
      else .fail .malformed
    | .inString raw =>
      if c = '"' then
        match unquote raw with
        | some t => deliver stack (.str (String.mk t))
        | none => .fail .malformed
      else if c = '\\' then .run stack (.inStringEsc (raw ++ [c]))
      else if c.toNat < 0x20 then .fail .malformed
      else .run stack (.inString (raw ++ [c]))
    | .inStringEsc raw =>
      if c = 'b' ∨ c = 'f' ∨ c = 'n' ∨ c = 'r' ∨ c = 't' ∨ c = '\\' ∨ c = '/' ∨ c = '"' then
        .run stack (.inString (raw ++ [c]))
      else if c = 'u' then .run stack (.inStringEscU (raw ++ [c]) 0)
      else .fail .malformed
    | .inStringEscU raw seen =>
      if isHex c then
        if seen < 3 then .run stack (.inStringEscU (raw ++ [c]) (seen + 1))
        else .run stack (.inString (raw ++ [c]))
      else .fail .malformed
    | .neg raw =>
      if c = '0' then .run stack (.zero (raw ++ [c]))
      else if isDigit c then .run stack (.int (raw ++ [c]))
      else .fail .malformed
    | .int raw =>
      if isDigit c then .run stack (.int (raw ++ [c]))
      else if c = '.' then .run stack (.dot (raw ++ [c]))
      else if c = 'e' ∨ c = 'E' then .run stack (.exp (raw ++ [c]))
      else endNumber stack raw c
    | .zero raw =>
      if c = '.' then .run stack (.dot (raw ++ [c]))
      else if c = 'e' ∨ c = 'E' then .run stack (.exp (raw ++ [c]))
      else endNumber stack raw c
    | .dot raw =>
      if isDigit c then .run stack (.dot0 (raw ++ [c]))
      else .fail .malformed
    | .dot0 raw =>
      if isDigit c then .run stack (.dot0 (raw ++ [c]))
      else if c = 'e' ∨ c = 'E' then .run stack (.exp (raw ++ [c]))
      else endNumber stack raw c
    | .exp raw =>
      if c = '+' ∨ c = '-' then .run stack (.expSign (raw ++ [c]))
      else if isDigit c then .run stack (.exp0 (raw ++ [c]))
      else .fail .malformed
    | .expSign raw =>
      if isDigit c then .run stack (.exp0 (raw ++ [c]))
      else .fail .malformed
    | .exp0 raw =>
      if isDigit c then .run stack (.exp0 (raw ++ [c]))
      else endNumber stack raw c
    | .lit rest v =>
      match rest with
      | [] => .fail .malformed
      | [x] => if c = x then deliver stack v else .fail .malformed
      | x :: xs => if c = x then .run stack (.lit xs v) else .fail .malformed
    | .endValue => endValue stack c

/-- The scanner at the start of a value. -/
def start : Scan := .run [] .beginValue

/-- The end of the input, as in `Decoder.readValue`: a value that is complete
    once a space is read is accepted (a number at the top level); otherwise
    the error is `io.ErrUnexpectedEOF`, or `io.EOF` when the input holds
    nothing but spaces. -/
def finish (input : List Char) (s : Scan) : Except JsonError Json :=
  match s with
  | .done v => .ok v
  | .fail e => .error e
  | .run _ _ =>
    match step s ' ' with
    | .done v => .ok v
    | _ => .error (if input.all isSpace then .eof else .unexpectedEOF)

/-- The first JSON value of `input`, as read by `(*json.Decoder).Decode` on a
    fresh decoder: leading spaces are skipped and whatever follows the value
    is left unread. -/
def readValue (input : String) : Except JsonError Json :=
  finish input.data (input.data.foldl step start)

/-! ### Decoding into Go values (`decode.go`) -/

/-- The case folding of `foldName` (`fold.go`), by which an object key is
    matched to a field when it is not the field's exact name. It is exact on
    ASCII and on the two other characters whose fold is an ASCII letter
    (U+017F and U+212A); every other character folds to a non-ASCII one, which
    is all that matters when the field names are ASCII. -/
def foldRune (c : Char) : Char :=
  if 'a'.toNat ≤ c.toNat ∧ c.toNat ≤ 'z'.toNat then Char.ofNat (c.toNat - 32)
  else if c.toNat = 0x17F then 'S'
  else if c.toNat = 0x212A then 'K'
  else c

/-- An object key selects the field called `name`: an exact match, or else a
    match of the folded names. -/
def matchesField (name key : String) : Bool :=
  key = name || key.data.map foldRune = name.data.map foldRune

/-- A JSON value stored into a Go `string` that holds `old`: a string is
    stored, `null` leaves the value as it is, anything else is an
    `UnmarshalTypeError`. -/
def decodeString (old : String) : Json → Except JsonError String
  | .str s => .ok s
  | .null => .ok old
  | _ => .error .typeMismatch

/-- A JSON value stored into a Go struct that holds `old`: the members of an
    object are stored one after the other by `field`, `null` leaves the struct
    as it is, anything else is an `UnmarshalTypeError`. -/
def decodeStruct {α : Type} (field : α → String → Json → Except JsonError α) (old : α) :
    Json → Except JsonError α
  | .obj members => members.foldlM (fun acc kv => field acc kv.1 kv.2) old
  | .null => .ok old
  | _ => .error .typeMismatch

/-- A Go slice: the elements of its backing array that have been written, and
    its length. Decoding reuses the backing array, so an element beyond the
    length can show up again. -/
structure GoSlice (α : Type) where
  data : List α
  len : Nat
  deriving DecidableEq

/-- The nil slice. -/
def GoSlice.nil {α : Type} : GoSlice α := ⟨[], 0⟩

/-- The element `s[i]`. The program reads it only after checking `i < len(s)`,
    where Go would stop with a run-time error otherwise. -/
def GoSlice.index {α : Type} [Inhabited α] (s : GoSlice α) (i : Nat) : α :=
  s.data.getD i default

/-- The elements of an array decoded one by one, element `i` into the value
    that the backing array holds at `i` (the zero value when it holds none). -/
def decodeElems {α : Type} (elem : α → Json → Except JsonError α) (zero : α) :
    List α → List Json → Except JsonError (List α)
  | _, [] => .ok []
  | old, e :: es =>
    match elem (old.headD zero) e with
    | .error err => .error err
    | .ok x =>
      match decodeElems elem zero old.tail es with
      | .error err => .error err
      | .ok xs => .ok (x :: xs)

/-- A JSON value stored into a Go slice that holds `old` (`(*decodeState).array`
    and `literalStore`): an array is decoded into the backing array and the
    slice is cut to the number of elements read, an empty array gives a fresh
    empty slice, `null` gives the nil slice, anything else is an
    `UnmarshalTypeError`. -/
def decodeSlice {α : Type} (elem : α → Json → Except JsonError α) (zero : α)
    (old : GoSlice α) : Json → Except JsonError (GoSlice α)
  | .arr [] => .ok ⟨[], 0⟩
  | .arr elems =>
    match decodeElems elem zero old.data elems with
    | .error err => .error err
    | .ok xs => .ok ⟨xs ++ old.data.drop xs.length, xs.length⟩
  | .null => .ok GoSlice.nil
  | _ => .error .typeMismatch

/-! ### Encoding (`encode.go`) -/

/-- The characters `0123456789abcdef` used for `\u` escapes. -/
def hexDigit (n : Nat) : Char :=
  if n < 10 then Char.ofNat ('0'.toNat + n) else Char.ofNat ('a'.toNat + (n - 10))

/-- The table `htmlSafeSet`: the ASCII characters written as they are when
    HTML escaping is on (the default of `Marshal` and of `Encoder`). -/
def htmlSafe (c : Char) : Bool :=
  decide (0x20 ≤ c.toNat ∧ c.toNat < 0x80) && !(c = '"' || c = '&' || c = '<' || c = '>' || c = '\\')

/-- One character of a string as `appendString` writes it. -/
def escapeChar (c : Char) : List Char :=
  if c.toNat < 0x80 then
    if htmlSafe c then [c]
    else if c = '\\' ∨ c = '"' then ['\\', c]
    else if c.toNat = 8 then ['\\', 'b']
    else if c.toNat = 12 then ['\\', 'f']
    else if c = '\n' then ['\\', 'n']
    else if c = '\r' then ['\\', 'r']
    else if c = '\t' then ['\\', 't']
    else ['\\', 'u', '0', '0', hexDigit (c.toNat / 16), hexDigit (c.toNat % 16)]
  else if c.toNat = 0x2028 ∨ c.toNat = 0x2029 then
    ['\\', 'u', '2', '0', '2', hexDigit (c.toNat % 16)]
  else [c]

/-- The contents of the string literal that `appendString` writes for `s`. -/
def escape (s : List Char) : List Char :=
  match s with
  | [] => []
  | c :: cs => escapeChar c ++ escape cs

/-- A Go string as a JSON string literal (`appendString` with HTML escaping). -/
def quote (s : String) : String :=
  String.mk ('"' :: escape s.data ++ ['"'])

end GoJson

/-! ## The program -/

namespace Backend

open GoJson

/-- The request body expected from the extension (`SummarizeRequest`). -/
structure SummarizeRequest where
  Text : String
  deriving DecidableEq

/-- The response body sent back to the extension (`SummarizeResponse`). -/
structure SummarizeResponse where
  Summary : String
  deriving DecidableEq

/-- One part of a candidate of the reply of the Gemini API. -/
structure Part where
  Text : String
  deriving DecidableEq, Inhabited

/-- The content of a candidate. -/
structure Content where
  Parts : GoSlice Part
  deriving DecidableEq

/-- One candidate of the reply. -/
structure Candidate where
  Content : Content
  deriving DecidableEq

instance : Inhabited Candidate := ⟨⟨⟨GoSlice.nil⟩⟩⟩

/-- The anonymous struct `geminiResp` of `callGeminiAPI`. -/
structure GeminiResp where
  Candidates : GoSlice Candidate
  deriving DecidableEq

/-- A member of a request object stored into a `SummarizeRequest`
    (field `Text`, tag `json:"text"`). -/
def SummarizeRequest.field (r : SummarizeRequest) (key : String) (v : Json) :
    Except JsonError SummarizeRequest :=
  if matchesField "text" key then (decodeString r.Text v).map (fun t => { r with Text := t })
  else .ok r

/-- The call `json.NewDecoder(r.Body).Decode(&reqPayload)` on a zero
    `reqPayload`. -/
def SummarizeRequest.decode (body : String) : Except JsonError SummarizeRequest :=
  match readValue body with
  | .error e => .error e
  | .ok v => decodeStruct SummarizeRequest.field ⟨""⟩ v

/-- A member stored into a part (field `Text`, tag `json:"text"`). -/
def Part.field (p : Part) (key : String) (v : Json) : Except JsonError Part :=
  if matchesField "text" key then (decodeString p.Text v).map (fun t => { p with Text := t })
  else .ok p

/-- A member stored into a content (field `Parts`, tag `json:"parts"`). -/
def Content.field (c : Content) (key : String) (v : Json) : Except JsonError Content :=
  if matchesField "parts" key then
    (decodeSlice (decodeStruct Part.field) ⟨""⟩ c.Parts v).map (fun ps => { c with Parts := ps })
  else .ok c

/-- A member stored into a candidate (field `Content`, tag `json:"content"`). -/
def Candidate.field (c : Candidate) (key : String) (v : Json) : Except JsonError Candidate :=
  if matchesField "content" key then
    (decodeStruct Content.field c.Content v).map (fun x => { c with Content := x })
  else .ok c

/-- A member stored into the reply (field `Candidates`, tag `json:"candidates"`). -/
def GeminiResp.field (g : GeminiResp) (key : String) (v : Json) : Except JsonError GeminiResp :=
  if matchesField "candidates" key then
    (decodeSlice (decodeStruct Candidate.field) ⟨⟨GoSlice.nil⟩⟩ g.Candidates v).map
      (fun cs => { g with Candidates := cs })
  else .ok g

/-- The call `json.NewDecoder(resp.Body).Decode(&geminiResp)` on a zero
    `geminiResp`. -/
def GeminiResp.decode (body : String) : Except JsonError GeminiResp :=
  match readValue body with
  | .error e => .error e
  | .ok v => decodeStruct GeminiResp.field ⟨GoSlice.nil⟩ v

/-- The output of `json.Marshal` for a `SummarizeResponse`. -/
def SummarizeResponse.marshal (r : SummarizeResponse) : String :=
  "\x7b\"summary\":" ++ quote r.Summary ++ "\x7d"

/-- The output of `json.Marshal` for the map
    `{"contents": [{"parts": [{"text": prompt}]}]}` of `callGeminiAPI`.
    Marshalling maps, slices and strings has no error case. -/
def marshalGeminiRequest (prompt : String) : Except JsonError String :=
  .ok ("\x7b\"contents\":[\x7b\"parts\":[\x7b\"text\":" ++ quote prompt ++ "\x7d]\x7d]\x7d")

/-! ### The HTTP server side (`net/http`) -/

/-- The parts of `*http.Request` that the handler reads. -/
structure Request where
  Method : String
  Body : String
  deriving DecidableEq

/-- A header map (`http.Header`), each name with its value. -/
abbrev Header := List (String × String)

/-- The method `Header.Set`: the name gets this value and no other. -/
def Header.Set (h : Header) (key value : String) : Header :=
  h.filter (fun kv => kv.1 ≠ key) ++ [(key, value)]

/-- The method `Header.Del`. -/
def Header.Del (h : Header) (key : String) : Header :=
  h.filter (fun kv => kv.1 ≠ key)

/-- The method `Header.Get`: the value of the name, or `""` when there is none. -/
def Header.Get (h : Header) (key : String) : String :=
  match h.find? (fun kv => kv.1 = key) with
  | some kv => kv.2
  | none => ""

/-- What the client receives. -/
structure Response where
  status : Nat
  header : Header
  body : String
  deriving DecidableEq

/-- The state of an `http.ResponseWriter`: the header map, the status line
    with the headers that went out with it once `WriteHeader` has run, and
    the body written so far. -/
structure ResponseWriter where
  header : Header
  wrote : Option (Nat × Header)
  body : String
  deriving DecidableEq

/-- The writer the server hands to a handler. -/
def ResponseWriter.new : ResponseWriter := ⟨[], none, ""⟩

/-- The method `w.Header().Set`. -/
def ResponseWriter.SetHeader (w : ResponseWriter) (key value : String) : ResponseWriter :=
  { w with header := w.header.Set key value }

/-- The method `WriteHeader`: sends the status and the current headers; a
    second call changes nothing. -/
def ResponseWriter.WriteHeader (w : ResponseWriter) (code : Nat) : ResponseWriter :=
  match w.wrote with
  | some _ => w
  | none => { w with wrote := some (code, w.header) }

/-- The method `Write`: sends status 200 first if no status has been sent. -/
def ResponseWriter.Write (w : ResponseWriter) (data : String) : ResponseWriter :=
  let w1 := w.WriteHeader 200
  { w1 with body := w1.body ++ data }

/-- The function `http.Error`: a plain-text reply with the given status, whose
    body is the message and a newline. -/
def httpError (w : ResponseWriter) (error : String) (code : Nat) : ResponseWriter :=
  let w1 := { w with header := w.header.Del "Content-Length" }
  let w2 := w1.SetHeader "Content-Type" "text/plain; charset=utf-8"
  let w3 := w2.SetHeader "X-Content-Type-Options" "nosniff"
  let w4 := w3.WriteHeader code
  w4.Write (error ++ "\n")

/-- The reply that goes out when the handler returns; a handler that wrote
    nothing gets status 200. -/
def ResponseWriter.finish (w : ResponseWriter) : Response :=
  match w.wrote with
  | some (code, h) => ⟨code, h, w.body⟩
  | none => ⟨200, w.header, w.body⟩

/-! ### The upstream side -/

/-- The parts of `*http.Response` that `callGeminiAPI` reads: the status code
    and the whole body. -/
structure HttpReply where
  StatusCode : Nat
  Body : String
  deriving DecidableEq

/-- One call of `http.Post`. -/
structure Call where
  url : String
  contentType : String
  body : String
  deriving DecidableEq

/-- The network as `http.Post` shows it: for a call, either an error (with its
    text) or the reply of the server. -/
abbrev Transport := String → String → String → Except String HttpReply

/-- The library error that an error of `callGeminiAPI` wraps with `%w`. -/
inductive Cause where
  | transport (text : String)
  | json (e : JsonError)
  deriving DecidableEq

/-- An error made by `fmt.Errorf` in `callGeminiAPI`: the text that the format
    and its `%d` and `%s` arguments give, and the wrapped error whose text
    follows it, if any. -/
structure GeminiError where
  text : String
  cause : Option Cause
  deriving DecidableEq

/-- What a call of `callGeminiAPI` returns and does: the two results
    `(string, error)` and the calls of `http.Post` it made. -/
structure CallResult where
  summary : String
  err : Option GeminiError
  calls : List Call
  deriving DecidableEq

/-- The local `apiURL` of `callGeminiAPI`. -/
def apiURL (apiKey : String) : String :=
  "https://generativelanguage.googleapis.com/v1beta/models/gemini-2.0-flash:generateContent?key="
    ++ apiKey

/-- The local `prompt` of `callGeminiAPI`. -/
def prompt (textToSummarize : String) : String :=
  "Summarize the following text in 200 words:\n\n" ++ textToSummarize

/-- The function `callGeminiAPI`. -/
def callGeminiAPI (post : Transport) (apiKey textToSummarize : String) : CallResult :=
  match marshalGeminiRequest (prompt textToSummarize) with
  | .error e => ⟨"", some ⟨"failed to marshal request body: ", some (.json e)⟩, []⟩
  | .ok requestBody =>
    let calls := [Call.mk (apiURL apiKey) "application/json" requestBody]
    match post (apiURL apiKey) "application/json" requestBody with
    | .error e =>
      ⟨"", some ⟨"failed to make request to Gemini API: ", some (.transport e)⟩, calls⟩
    | .ok resp =>
      if resp.StatusCode ≠ 200 then
        ⟨"", some ⟨"gemini API request failed with status " ++ toString resp.StatusCode ++ ": "
          ++ resp.Body, none⟩, calls⟩
      else
        match GeminiResp.decode resp.Body with
        | .error e => ⟨"", some ⟨"failed to decode Gemini response: ", some (.json e)⟩, calls⟩
        | .ok geminiResp =>
          if 0 < geminiResp.Candidates.len ∧
              0 < (geminiResp.Candidates.index 0).Content.Parts.len then
            ⟨((geminiResp.Candidates.index 0).Content.Parts.index 0).Text, none, calls⟩
          else ⟨"", some ⟨"no summary found in Gemini response", none⟩, calls⟩

/-- What handling one request gives: the reply, the errors passed to
    `log.Printf`, and the calls of `http.Post`. -/
structure Outcome where
  response : Response
  logged : List GeminiError
  calls : List Call
  deriving DecidableEq

/-- The handler returned by `summarizeHandler(apiKey)`, run on one request. -/
def summarizeHandler (apiKey : String) (post : Transport) (r : Request) : Outcome :=
  let w0 := ResponseWriter.new
  let w1 := w0.SetHeader "Access-Control-Allow-Origin" "*"
  let w2 := w1.SetHeader "Access-Control-Allow-Methods" "POST, OPTIONS"
  let w := w2.SetHeader "Access-Control-Allow-Headers" "Content-Type"
  if r.Method = "OPTIONS" then
    ⟨(w.WriteHeader 200).finish, [], []⟩
  else if r.Method ≠ "POST" then
    ⟨(httpError w "Only POST method is allowed" 405).finish, [], []⟩
  else
    match SummarizeRequest.decode r.Body with
    | .error _ => ⟨(httpError w "Invalid request body" 400).finish, [], []⟩
    | .ok reqPayload =>
      if reqPayload.Text = "" then
        ⟨(httpError w "Text field is required" 400).finish, [], []⟩
      else
        let res := callGeminiAPI post apiKey reqPayload.Text
        match res.err with
        | some err =>
          ⟨(httpError w "Failed to generate summary" 500).finish, [err], res.calls⟩
        | none =>
          let respPayload : SummarizeResponse := ⟨res.summary⟩
          let w5 := w.SetHeader "Content-Type" "application/json"
          ⟨(w5.Write (respPayload.marshal ++ "\n")).finish, [], res.calls⟩

/-- The call of `http.Post` that `callGeminiAPI` makes for a key and a text:
    the URL with the key, the content type, and the marshalled request. -/
def geminiCall (apiKey textToSummarize : String) : Call :=
  ⟨apiURL apiKey, "application/json",
    "\x7b\"contents\":[\x7b\"parts\":[\x7b\"text\":" ++ quote (prompt textToSummarize) ++ "\x7d]\x7d]\x7d"⟩

/-- What the network answers to a call. -/
def Transport.answer (post : Transport) (c : Call) : Except String HttpReply :=
  post c.url c.contentType c.body

/-- The upstream failures: the request cannot be made or gets no reply, the
    reply has a status other than 200, its body cannot be decoded, or it has
    no candidate or no part in its first candidate. -/
def UpstreamFailure (answer : Except String HttpReply) : Prop :=
  match answer with
  | .error _ => True
  | .ok reply =>
    reply.StatusCode ≠ 200 ∨
      match GeminiResp.decode reply.Body with
      | .error _ => True
      | .ok g => g.Candidates.len = 0 ∨ (g.Candidates.index 0).Content.Parts.len = 0

/-- A mocked upstream that answers every call with the same reply. -/
def mockReply (status : Nat) (body : String) : Transport :=
  fun _ _ _ => .ok ⟨status, body⟩

/-- A mocked upstream that cannot be reached. -/
def mockDown (error : String) : Transport :=
  fun _ _ _ => .error error

/-- The three CORS headers that the handler sets first. -/
def corsHeader : Header :=
  [("Access-Control-Allow-Origin", "*"),
   ("Access-Control-Allow-Methods", "POST, OPTIONS"),
   ("Access-Control-Allow-Headers", "Content-Type")]

/-- The reply that `http.Error(w, message, code)` gives after the CORS headers
    are set: plain text, the message followed by a newline. -/
def plainError (code : Nat) (message : String) : Response :=
  ⟨code,
   corsHeader ++
     [("Content-Type", "text/plain; charset=utf-8"), ("X-Content-Type-Options", "nosniff")],
   message ++ "\n"⟩

end Backend

/-! ## Properties of the JSON model -/

namespace GoJson

theorem char_eq_of_toNat {c : Char} {n : Nat} (h : c.toNat = n) : c = Char.ofNat n := by
  subst h
  exact (Char.ofNat_toNat c).symm

theorem getu4_low : ∀ n, n < 128 →
    getu4 '0' '0' (hexDigit (n / 16)) (hexDigit (n % 16)) = some n := by
  decide

theorem unquotePair_length (rr : Nat) (rest : List Char) :
    (unquotePair rr rest).2.length ≤ rest.length := by
  unfold unquotePair
  split
  · split
    · simp only [List.length_cons]; omega
    · exact le_refl _
  · exact le_refl _

theorem unquoteU_length (rest : List Char) (x : Char) (out : List Char)
    (h : unquoteU rest = some (x, out)) : out.length < rest.length := by
  unfold unquoteU at h
  split at h
  · rename_i a b c d rest1
    split at h
    · cases h
    · rename_i rr hrr
      split_ifs at h
      · have hp := unquotePair_length rr rest1
        simp only [Option.some.injEq] at h
        rw [h] at hp
        simp only [List.length_cons]
        exact Nat.lt_of_le_of_lt hp (by omega)
      · simp only [Option.some.injEq, Prod.mk.injEq] at h
        rw [← h.2]
        simp only [List.length_cons]
        omega
  · cases h

/-- Every round of the loop takes at least one character. -/
theorem unquoteStep_length (input : List Char) (x : Char) (out : List Char)
    (h : unquoteStep input = some (x, out)) : out.length < input.length := by
  unfold unquoteStep at h
  split at h
  · cases h
  · rename_i c rest
    split_ifs at h
    · split at h
      · cases h
      · rename_i e rest1
        split_ifs at h
        · have := unquoteU_length rest1 x out h
          simp only [List.length_cons]
          omega
        · cases hu : unescape e with
          | none => simp [hu] at h
          | some y =>
            simp only [hu, Option.map_some', Option.some.injEq, Prod.mk.injEq] at h
            rw [← h.2]
            simp only [List.length_cons]
            omega
    · simp only [Option.some.injEq, Prod.mk.injEq] at h
      rw [← h.2]
      simp only [List.length_cons]
      omega

/-- The loop of `unquoteBytes` never runs out of rounds: with one round per
    character or more, the result does not depend on the number of rounds. -/
theorem unquoteLoop_enough (n : Nat) :
    ∀ (m : Nat) (raw : List Char), raw.length ≤ n → raw.length ≤ m →
      unquoteLoop n raw = unquoteLoop m raw := by
  induction n with
  | zero =>
    intro m raw hn _
    have : raw = [] := List.length_eq_zero.mp (by omega)
    subst this
    cases m <;> rfl
  | succ k ih =>
    intro m raw hn hm
    cases raw with
    | nil => cases m <;> rfl
    | cons c rest =>
      cases m with
      | zero => simp at hm
      | succ j =>
        simp only [unquoteLoop]
        cases hs : unquoteStep (c :: rest) with
        | none => rfl
        | some p =>
          obtain ⟨x, out⟩ := p
          have hl := unquoteStep_length (c :: rest) x out hs
          simp only [List.length_cons] at hl hn hm
          simp only []
          rw [ih j out (by omega) (by omega)]

theorem unquoteStep_plain (c : Char) (tail : List Char) (h1 : c ≠ '\\') (h2 : c ≠ '"')
    (h3 : ¬ c.toNat < 0x20) : unquoteStep (c :: tail) = some (c, tail) := by
  simp [unquoteStep, h1, h2, h3]

theorem unquoteStep_u00 (c : Char) (tail : List Char) (h : c.toNat < 128) :
    unquoteStep ('\\' :: 'u' :: '0' :: '0' :: hexDigit (c.toNat / 16) ::
      hexDigit (c.toNat % 16) :: tail) = some (c, tail) := by
  have hs : isSurrogate c.toNat = false := by
    simp [isSurrogate]; omega
  simp [unquoteStep, unquoteU, getu4_low c.toNat h, hs, Char.ofNat_toNat]

theorem unquoteStep_escapeChar (c : Char) (tail : List Char) :
    unquoteStep (escapeChar c ++ tail) = some (c, tail) := by
  unfold escapeChar
  split_ifs with h1 h2 h3 h4 h5 h6 h7 h8 h9
  · -- written as it is
    simp only [htmlSafe, Bool.and_eq_true, decide_eq_true_eq, Bool.not_eq_true',
      Bool.or_eq_false_iff, decide_eq_false_iff_not] at h2
    exact unquoteStep_plain c tail h2.2.2 h2.2.1.1.1.1 (by omega)
  · rcases h3 with h3 | h3 <;> subst h3 <;> rfl
  · rw [char_eq_of_toNat h4]; rfl
  · rw [char_eq_of_toNat h5]; rfl
  · subst h6; rfl
  · subst h7; rfl
  · subst h8; rfl
  · exact unquoteStep_u00 c tail h1
  · rcases h9 with h9 | h9 <;> rw [char_eq_of_toNat h9] <;> rfl
  · have hb : c ≠ '\\' := by
      intro hc; subst hc; exact h1 (by decide)
    have hq : c ≠ '"' := by
      intro hc; subst hc; exact h1 (by decide)
    exact unquoteStep_plain c tail hb hq (by omega)

theorem escapeChar_length_pos (c : Char) : 0 < (escapeChar c).length := by
  unfold escapeChar
  split_ifs <;> simp

theorem unquoteLoop_escape (s : List Char) :
    ∀ n, (escape s).length ≤ n → unquoteLoop n (escape s) = some s := by
  induction s with
  | nil => intro n _; cases n <;> rfl
  | cons c cs ih =>
    intro n hn
    have hpos := escapeChar_length_pos c
    simp only [escape, List.length_append] at hn
    cases n with
    | zero => omega
    | succ m =>
      obtain ⟨x, xs, hx⟩ : ∃ x xs, escapeChar c = x :: xs := by
        cases h : escapeChar c with
        | nil => simp [h] at hpos
        | cons x xs => exact ⟨x, xs, rfl⟩
      have hstep := unquoteStep_escapeChar c (escape cs)
      simp only [escape, hx, List.cons_append] at hstep ⊢
      have hlen : (escape cs).length ≤ m := by
        have := congrArg List.length hx
        simp at this
        omega
      simp [unquoteLoop, hstep, ih m hlen]

/-- Decoding what `appendString` wrote gives the string back. -/
theorem unquote_escape (s : List Char) : unquote (escape s) = some s :=
  unquoteLoop_escape s _ (le_refl _)

theorem isHex_hexDigit : ∀ n, n < 16 → isHex (hexDigit n) = true := by
  decide

theorem step_plain (stack : List Frame) (raw : List Char) (c : Char) (h1 : c ≠ '\\')
    (h2 : c ≠ '"') (h3 : ¬ c.toNat < 0x20) :
    step (.run stack (.inString raw)) c = .run stack (.inString (raw ++ [c])) := by
  simp [step, h1, h2, h3]

theorem foldl_step_escapeChar (stack : List Frame) (raw : List Char) (c : Char) :
    (escapeChar c).foldl step (.run stack (.inString raw)) =
      .run stack (.inString (raw ++ escapeChar c)) := by
  unfold escapeChar
  split_ifs with h1 h2 h3 h4 h5 h6 h7 h8 h9
  · simp only [htmlSafe, Bool.and_eq_true, decide_eq_true_eq, Bool.not_eq_true',
      Bool.or_eq_false_iff, decide_eq_false_iff_not] at h2
    simp only [List.foldl_cons, List.foldl_nil]
    exact step_plain stack raw c h2.2.2 h2.2.1.1.1.1 (by omega)
  · rcases h3 with h3 | h3 <;> subst h3 <;> simp [step]
  · simp [step]
  · simp [step]
  · simp [step]
  · simp [step]
  · simp [step]
  · have ha := isHex_hexDigit (c.toNat / 16) (by omega)
    have hb := isHex_hexDigit (c.toNat % 16) (by omega)
    have h0 : isHex '0' = true := by decide
    simp [step, ha, hb, h0]
  · have hb := isHex_hexDigit (c.toNat % 16) (by omega)
    have h0 : isHex '0' = true := by decide
    have h2 : isHex '2' = true := by decide
    simp [step, hb, h0, h2]
  · have hb : c ≠ '\\' := by
      intro hc; subst hc; exact h1 (by decide)
    have hq : c ≠ '"' := by
      intro hc; subst hc; exact h1 (by decide)
    simp only [List.foldl_cons, List.foldl_nil]
    exact step_plain stack raw c hb hq (by omega)

theorem foldl_step_escape (stack : List Frame) (s : List Char) :
    ∀ raw, (escape s).foldl step (.run stack (.inString raw)) =
      .run stack (.inString (raw ++ escape s)) := by
  induction s with
  | nil => intro raw; simp [escape]
  | cons c cs ih =>
    intro raw
    simp only [escape, List.foldl_append, foldl_step_escapeChar, ih, List.append_assoc]

/-- Reading the string literal that `appendString` wrote for `s`, from its
    opening quote on, delivers the string `s`. -/
theorem foldl_step_quote (stack : List Frame) (s : String) (rest : List Char) :
    (escape s.data ++ '"' :: rest).foldl step (.run stack (.inString [])) =
      rest.foldl step (deliver stack (.str s)) := by
  rw [List.foldl_append, foldl_step_escape, List.foldl_cons]
  simp [step, unquote_escape]

/-- A text that holds the literal of `s` between `pre` (which ends with the
    opening quote) and `suf` (which follows the closing quote) is read as the
    value `v`, when `pre` leads the scanner into a string and `suf` completes
    the value once the string `s` is delivered. -/
theorem readValue_around_quote (pre suf : List Char) (s : String) (stack : List Frame)
    (v : Json) (h1 : pre.foldl step start = .run stack (.inString []))
    (h2 : suf.foldl step (deliver stack (.str s)) = .done v) :
    readValue (String.mk (pre ++ (escape s.data ++ '"' :: suf))) = .ok v := by
  have h : (pre ++ (escape s.data ++ '"' :: suf)).foldl step start = .done v := by
    rw [List.foldl_append, h1, foldl_step_quote, h2]
  simp only [readValue, h, finish]

theorem text_around_quote (a b s : String) :
    a ++ quote s ++ b = String.mk ((a.data ++ ['"']) ++ (escape s.data ++ '"' :: b.data)) := by
  apply String.ext
  simp [quote, String.data_append]

theorem foldl_step_done (v : Json) (rest : List Char) :
    rest.foldl step (.done v) = .done v := by
  induction rest with
  | nil => rfl
  | cons c cs ih => simpa [step] using ih

/-- Once the first value is complete, what follows it is not read. -/
theorem readValue_rest_unread (body rest : String) (v : Json)
    (h : body.data.foldl step start = .done v) : readValue (body ++ rest) = .ok v := by
  simp only [readValue, String.data_append, List.foldl_append, h, foldl_step_done, finish]

theorem foldlM_invariant {α β : Type} (P : α → Prop) (f : α → β → Except JsonError α)
    (hf : ∀ a b a1, P a → f a b = .ok a1 → P a1) :
    ∀ (l : List β) (a a1 : α), P a → l.foldlM f a = .ok a1 → P a1 := by
  intro l
  induction l with
  | nil =>
    intro a a1 ha h
    simp only [List.foldlM_nil, pure, Except.pure, Except.ok.injEq] at h
    exact h ▸ ha
  | cons b bs ih =>
    intro a a1 ha h
    simp only [List.foldlM_cons, bind, Except.bind] at h
    cases hb : f a b with
    | error e => simp [hb] at h
    | ok a2 =>
      simp only [hb] at h
      exact ih a2 a1 (hf a b a2 ha hb) h

theorem decodeStruct_invariant {α : Type} (P : α → Prop)
    (field : α → String → Json → Except JsonError α)
    (hf : ∀ a k v a1, P a → field a k v = .ok a1 → P a1) (old : α) (j : Json) (x : α)
    (hold : P old) (h : decodeStruct field old j = .ok x) : P x := by
  cases j with
  | obj members =>
    have h1 : members.foldlM (fun acc kv => field acc kv.1 kv.2) old = .ok x := h
    exact foldlM_invariant P (fun acc (kv : String × Json) => field acc kv.1 kv.2)
      (fun a b a1 ha hb => hf a b.1 b.2 a1 ha hb) members old x hold h1
  | null =>
    simp only [decodeStruct, Except.ok.injEq] at h
    exact h ▸ hold
  | bool b => simp [decodeStruct] at h
  | num raw => simp [decodeStruct] at h
  | str t => simp [decodeStruct] at h
  | arr elems => simp [decodeStruct] at h

theorem decodeElems_invariant {α : Type} (P : α → Prop)
    (elem : α → Json → Except JsonError α) (zero : α) (hz : P zero)
    (he : ∀ a j a1, P a → elem a j = .ok a1 → P a1) :
    ∀ (js : List Json) (old xs : List α), (∀ o ∈ old, P o) →
      decodeElems elem zero old js = .ok xs → ∀ x ∈ xs, P x := by
  intro js
  induction js with
  | nil =>
    intro old xs _ h x hx
    simp only [decodeElems, Except.ok.injEq] at h
    subst h
    cases hx
  | cons j rest ih =>
    intro old xs hold h x hx
    rw [decodeElems] at h
    have hhead : P (old.headD zero) := by
      cases old with
      | nil => exact hz
      | cons o os => exact hold o (List.mem_cons_self _ _)
    have htail : ∀ o ∈ old.tail, P o := fun o ho => hold o (List.mem_of_mem_tail ho)
    cases h1 : elem (old.headD zero) j with
    | error e =>
      rw [h1] at h
      cases h
    | ok y =>
      rw [h1] at h
      cases h2 : decodeElems elem zero old.tail rest with
      | error e =>
        rw [h2] at h
        cases h
      | ok ys =>
        rw [h2] at h
        simp only [Except.ok.injEq] at h
        subst h
        rcases List.mem_cons.mp hx with hxy | hxy
        · exact hxy ▸ he _ j y hhead h1
        · exact ih old.tail ys htail h2 x hxy

/-- A decoded slice is no longer than its backing array, and decoding keeps a
    property of the elements that decoding one element keeps. -/
theorem decodeSlice_invariant {α : Type} (P : α → Prop)
    (elem : α → Json → Except JsonError α) (zero : α) (hz : P zero)
    (he : ∀ a j a1, P a → elem a j = .ok a1 → P a1) (old s : GoSlice α) (j : Json)
    (hold : ∀ o ∈ old.data, P o) (h : decodeSlice elem zero old j = .ok s) :
    s.len ≤ s.data.length ∧ ∀ x ∈ s.data, P x := by
  cases j with
  | arr elems =>
    cases elems with
    | nil =>
      simp only [decodeSlice, Except.ok.injEq] at h
      subst h
      exact ⟨le_refl _, fun x hx => by cases hx⟩
    | cons e es =>
      simp only [decodeSlice] at h
      cases h1 : decodeElems elem zero old.data (e :: es) with
      | error err => simp [h1] at h
      | ok xs =>
        simp only [h1, Except.ok.injEq] at h
        subst h
        refine ⟨by simp, fun x hx => ?_⟩
        rcases List.mem_append.mp hx with hx1 | hx1
        · exact decodeElems_invariant P elem zero hz he (e :: es) old.data xs hold h1 x hx1
        · exact hold x (List.mem_of_mem_drop hx1)
  | null =>
    simp only [decodeSlice, Except.ok.injEq] at h
    subst h
    exact ⟨le_refl _, fun x hx => by cases hx⟩
  | bool b => simp [decodeSlice] at h
  | num raw => simp [decodeSlice] at h
  | str t => simp [decodeSlice] at h
  | obj members => simp [decodeSlice] at h

end GoJson

namespace Backend

open GoJson

theorem readValue_request (s : String) :
    readValue ("\x7b\"text\":" ++ quote s ++ "\x7d") = .ok (.obj [("text", .str s)]) := by
  rw [text_around_quote]
  exact readValue_around_quote _ _ s [.obj [] (some "text")] _ rfl rfl

theorem readValue_response (t : String) :
    readValue (SummarizeResponse.marshal ⟨t⟩ ++ "\n") = .ok (.obj [("summary", .str t)]) := by
  have h : SummarizeResponse.marshal ⟨t⟩ ++ "\n" = "\x7b\"summary\":" ++ quote t ++ "\x7d\n" := by
    simp [SummarizeResponse.marshal, String.append_assoc]
  rw [h, text_around_quote]
  exact readValue_around_quote _ _ t [.obj [] (some "summary")] _ rfl rfl

theorem readValue_geminiRequest (p : String) :
    readValue ("\x7b\"contents\":[\x7b\"parts\":[\x7b\"text\":" ++ quote p ++ "\x7d]\x7d]\x7d") =
      .ok (.obj [("contents", .arr [.obj [("parts", .arr [.obj [("text", .str p)]])]])]) := by
  rw [text_around_quote]
  exact readValue_around_quote _ _ p
    [.obj [] (some "text"), .arr [], .obj [] (some "parts"), .arr [], .obj [] (some "contents")]
    _ rfl rfl

end Backend

/-! ## Properties of the handler and of the upstream client -/

namespace Backend

open GoJson

set_option maxRecDepth 8192

theorem handler_path_invalid (apiKey : String) (post : Transport) (r : Request)
    (e : JsonError) (hm : r.Method = "POST") (hd : SummarizeRequest.decode r.Body = .error e) :
    summarizeHandler apiKey post r = ⟨plainError 400 "Invalid request body", [], []⟩ := by
  unfold summarizeHandler
  simp only [hm, hd]
  rfl

theorem handler_path_empty (apiKey : String) (post : Transport) (r : Request)
    (req : SummarizeRequest) (hm : r.Method = "POST")
    (hd : SummarizeRequest.decode r.Body = .ok req) (ht : req.Text = "") :
    summarizeHandler apiKey post r = ⟨plainError 400 "Text field is required", [], []⟩ := by
  unfold summarizeHandler
  simp only [hm, hd, ht]
  rfl

theorem handler_path_failure (apiKey : String) (post : Transport) (r : Request)
    (req : SummarizeRequest) (err : GeminiError) (hm : r.Method = "POST")
    (hd : SummarizeRequest.decode r.Body = .ok req) (ht : req.Text ≠ "")
    (he : (callGeminiAPI post apiKey req.Text).err = some err) :
    summarizeHandler apiKey post r =
      ⟨plainError 500 "Failed to generate summary", [err],
        (callGeminiAPI post apiKey req.Text).calls⟩ := by
  unfold summarizeHandler
  simp only [hm, hd, ht, he]
  rfl

theorem handler_path_success (apiKey : String) (post : Transport) (r : Request)
    (req : SummarizeRequest) (hm : r.Method = "POST")
    (hd : SummarizeRequest.decode r.Body = .ok req) (ht : req.Text ≠ "")
    (he : (callGeminiAPI post apiKey req.Text).err = none) :
    summarizeHandler apiKey post r =
      ⟨⟨200, corsHeader ++ [("Content-Type", "application/json")],
          SummarizeResponse.marshal ⟨(callGeminiAPI post apiKey req.Text).summary⟩ ++ "\n"⟩,
        [], (callGeminiAPI post apiKey req.Text).calls⟩ := by
  unfold summarizeHandler
  simp only [hm, hd, ht, he]
  simp [ResponseWriter.finish, ResponseWriter.Write, ResponseWriter.WriteHeader,
    ResponseWriter.SetHeader, ResponseWriter.new, Header.Set, corsHeader]

theorem handler_path_other (apiKey : String) (post : Transport) (r : Request)
    (h1 : r.Method ≠ "OPTIONS") (h2 : r.Method ≠ "POST") :
    summarizeHandler apiKey post r = ⟨plainError 405 "Only POST method is allowed", [], []⟩ := by
  unfold summarizeHandler
  rw [if_neg h1, if_pos h2]
  rfl

theorem handler_path_preflight (apiKey : String) (post : Transport) (r : Request)
    (h : r.Method = "OPTIONS") :
    summarizeHandler apiKey post r = ⟨⟨200, corsHeader, ""⟩, [], []⟩ := by
  unfold summarizeHandler
  rw [if_pos h]
  rfl

theorem decode_request (s : String) :
    SummarizeRequest.decode ("\x7b\"text\":" ++ quote s ++ "\x7d") = .ok ⟨s⟩ := by
  have hm : matchesField "text" "text" = true := by decide
  simp [SummarizeRequest.decode, readValue_request, decodeStruct, SummarizeRequest.field,
    decodeString, hm, Except.map, bind, Except.bind, pure, Except.pure]

theorem field_blank (k : String) (v : Json)
    (h : matchesField "text" k = true → v = .str "" ∨ v = .null) :
    SummarizeRequest.field ⟨""⟩ k v = .ok ⟨""⟩ := by
  unfold SummarizeRequest.field
  by_cases hk : matchesField "text" k = true
  · rcases h hk with hv | hv <;> subst hv <;> simp [hk, decodeString, Except.map]
  · simp [hk]

theorem foldlM_blank (ms : List (String × Json))
    (h : ∀ kv ∈ ms, matchesField "text" kv.1 = true → kv.2 = .str "" ∨ kv.2 = .null) :
    ms.foldlM (fun acc kv => SummarizeRequest.field acc kv.1 kv.2) (⟨""⟩ : SummarizeRequest)
      = .ok ⟨""⟩ := by
  induction ms with
  | nil => rfl
  | cons kv rest ih =>
    have h1 := field_blank kv.1 kv.2 (h kv (List.mem_cons_self _ _))
    have h2 := ih (fun x hx => h x (List.mem_cons_of_mem _ hx))
    simp only [List.foldlM_cons, h1, bind, Except.bind, h2]

theorem field_mismatch (acc : SummarizeRequest) (k : String) (v : Json)
    (hk : matchesField "text" k = true) (hn : v ≠ .null) (hs : ∀ s, v ≠ .str s) :
    SummarizeRequest.field acc k v = .error .typeMismatch := by
  unfold SummarizeRequest.field
  cases v with
  | null => exact absurd rfl hn
  | str s => exact absurd rfl (hs s)
  | bool b => simp [hk, decodeString, Except.map]
  | num raw => simp [hk, decodeString, Except.map]
  | arr elems => simp [hk, decodeString, Except.map]
  | obj members => simp [hk, decodeString, Except.map]

theorem foldlM_mismatch (ms : List (String × Json)) (k : String) (v : Json)
    (hmem : (k, v) ∈ ms) (hk : matchesField "text" k = true) (hn : v ≠ .null)
    (hs : ∀ s, v ≠ .str s) :
    ∀ acc : SummarizeRequest,
      ∃ e, ms.foldlM (fun acc kv => SummarizeRequest.field acc kv.1 kv.2) acc = .error e := by
  induction ms with
  | nil => cases hmem
  | cons kv rest ih =>
    intro acc
    simp only [List.foldlM_cons, bind, Except.bind]
    cases hf : SummarizeRequest.field acc kv.1 kv.2 with
    | error e => exact ⟨e, rfl⟩
    | ok acc1 =>
      rcases List.mem_cons.mp hmem with hh | hh
      · subst hh
        rw [field_mismatch acc k v hk hn hs] at hf
        cases hf
      · exact ih hh acc1

theorem deliver_open (f : Frame) (stack : List Frame) (w v : Json) :
    deliver (f :: stack) w ≠ .done v := by
  cases f with
  | arr es => simp [deliver]
  | obj ms key =>
    cases key with
    | none => cases w <;> simp [deliver]
    | some k => simp [deliver]

theorem endValue_space (stack : List Frame) (v : Json) : endValue stack ' ' ≠ .done v := by
  have hsp : isSpace ' ' = true := by decide
  unfold endValue
  split <;> simp [hsp]

theorem endNumber_space_open (f : Frame) (stack : List Frame) (raw : List Char) (v : Json) :
    endNumber (f :: stack) raw ' ' ≠ .done v := by
  unfold endNumber
  cases hx : deliver (f :: stack) (.num (String.mk raw)) with
  | run st m => exact endValue_space st v
  | done w => exact absurd hx (deliver_open f stack _ w)
  | fail e => simp

/-- Inside an open array or object, reading a space never completes the
    value: input that ends there is cut short. -/
theorem step_space_open (f : Frame) (stack : List Frame) (mode : Mode) (v : Json) :
    step (.run (f :: stack) mode) ' ' ≠ .done v := by
  have hsp : isSpace ' ' = true := by decide
  have hq : ¬ (' ' : Char) = '"' := by decide
  have hb : ¬ (' ' : Char) = '\\' := by decide
  have hc : ¬ (' ' : Char).toNat < 0x20 := by decide
  cases mode with
  | lit rest w =>
    simp only [step]
    split
    · simp
    · split_ifs
      · exact deliver_open f stack w v
      · simp
    · split_ifs <;> simp
  | inString raw => simp [step, hq, hb, hc]
  | _ =>
    simp only [step, hsp]
    first
      | exact endValue_space _ v
      | exact endNumber_space_open f stack _ v
      | (split_ifs <;>
          first
            | exact endNumber_space_open f stack _ v
            | exact endValue_space _ v
            | simp)

theorem readValue_cut_short (body : String) (f : Frame) (stack : List Frame) (mode : Mode)
    (h : body.data.foldl step start = .run (f :: stack) mode) :
    ∃ e, readValue body = .error e := by
  unfold readValue
  rw [h]
  unfold finish
  simp only
  split
  · rename_i v hv
    exact absurd hv (step_space_open f stack mode v)
  · exact ⟨_, rfl⟩

theorem content_field_length (c : Content) (k : String) (v : Json) (c1 : Content)
    (_hc : c.Parts.len ≤ c.Parts.data.length) (h : Content.field c k v = .ok c1) :
    c1.Parts.len ≤ c1.Parts.data.length := by
  unfold Content.field at h
  split_ifs at h
  · cases hd : decodeSlice (decodeStruct Part.field) ⟨""⟩ c.Parts v with
    | error e => simp [hd, Except.map] at h
    | ok ps =>
      simp only [hd, Except.map, Except.ok.injEq] at h
      subst h
      exact (decodeSlice_invariant (fun _ => True) _ _ trivial (fun _ _ _ _ _ => trivial)
        c.Parts ps v (fun _ _ => trivial) hd).1
  · simp only [Except.ok.injEq] at h
    exact h ▸ _hc

theorem candidate_field_length (c : Candidate) (k : String) (v : Json) (c1 : Candidate)
    (hc : c.Content.Parts.len ≤ c.Content.Parts.data.length)
    (h : Candidate.field c k v = .ok c1) :
    c1.Content.Parts.len ≤ c1.Content.Parts.data.length := by
  unfold Candidate.field at h
  split_ifs at h
  · cases hd : decodeStruct Content.field c.Content v with
    | error e => simp [hd, Except.map] at h
    | ok x =>
      simp only [hd, Except.map, Except.ok.injEq] at h
      subst h
      exact decodeStruct_invariant (fun x : Content => x.Parts.len ≤ x.Parts.data.length)
        Content.field content_field_length c.Content v x hc hd
  · simp only [Except.ok.injEq] at h
    exact h ▸ hc

/-- The slices of a decoded reply are no longer than their backing arrays, so
    the elements that `callGeminiAPI` reads after its length checks exist. -/
theorem geminiResp_decode_length (body : String) (g : GeminiResp)
    (h : GeminiResp.decode body = .ok g) :
    g.Candidates.len ≤ g.Candidates.data.length ∧
    ∀ c ∈ g.Candidates.data, c.Content.Parts.len ≤ c.Content.Parts.data.length := by
  unfold GeminiResp.decode at h
  cases hr : readValue body with
  | error e => simp [hr] at h
  | ok v =>
    simp only [hr] at h
    refine decodeStruct_invariant
      (fun x : GeminiResp => x.Candidates.len ≤ x.Candidates.data.length ∧
        ∀ c ∈ x.Candidates.data, c.Content.Parts.len ≤ c.Content.Parts.data.length)
      GeminiResp.field ?_ ⟨GoSlice.nil⟩ v g ⟨le_refl _, fun c hc => by cases hc⟩ h
    intro a k w a1 ha hf
    unfold GeminiResp.field at hf
    split_ifs at hf
    · cases hd : decodeSlice (decodeStruct Candidate.field) ⟨⟨GoSlice.nil⟩⟩ a.Candidates w with
      | error e => simp [hd, Except.map] at hf
      | ok cs =>
        simp only [hd, Except.map, Except.ok.injEq] at hf
        subst hf
        exact decodeSlice_invariant
          (fun x : Candidate => x.Content.Parts.len ≤ x.Content.Parts.data.length)
          (decodeStruct Candidate.field) ⟨⟨GoSlice.nil⟩⟩ (le_refl _)
          (fun o j o1 ho hj => decodeStruct_invariant _ Candidate.field candidate_field_length
            o j o1 ho hj)
          a.Candidates cs w ha.2 hd
    · simp only [Except.ok.injEq] at hf
      exact hf ▸ ha

theorem callGeminiAPI_calls (post : Transport) (apiKey text : String) :
    (callGeminiAPI post apiKey text).calls = [geminiCall apiKey text] := by
  simp only [callGeminiAPI, marshalGeminiRequest]
  split
  · rfl
  · split_ifs
    · rfl
    · split
      · rfl
      · split_ifs <;> rfl

theorem callGeminiAPI_of_error (post : Transport) (apiKey text e : String)
    (h : post.answer (geminiCall apiKey text) = .error e) :
    callGeminiAPI post apiKey text =
      ⟨"", some ⟨"failed to make request to Gemini API: ", some (.transport e)⟩,
        [geminiCall apiKey text]⟩ := by
  simp only [Transport.answer, geminiCall] at h
  simp only [callGeminiAPI, marshalGeminiRequest, h]
  rfl

theorem callGeminiAPI_of_status (post : Transport) (apiKey text : String) (reply : HttpReply)
    (h : post.answer (geminiCall apiKey text) = .ok reply) (hs : reply.StatusCode ≠ 200) :
    callGeminiAPI post apiKey text =
      ⟨"", some ⟨"gemini API request failed with status " ++ toString reply.StatusCode ++ ": "
        ++ reply.Body, none⟩, [geminiCall apiKey text]⟩ := by
  simp only [Transport.answer, geminiCall] at h
  simp only [callGeminiAPI, marshalGeminiRequest, h]
  rw [if_pos hs]
  rfl

theorem callGeminiAPI_of_undecodable (post : Transport) (apiKey text : String)
    (reply : HttpReply) (e : JsonError)
    (h : post.answer (geminiCall apiKey text) = .ok reply) (hs : reply.StatusCode = 200)
    (hd : GeminiResp.decode reply.Body = .error e) :
    callGeminiAPI post apiKey text =
      ⟨"", some ⟨"failed to decode Gemini response: ", some (.json e)⟩,
        [geminiCall apiKey text]⟩ := by
  simp only [Transport.answer, geminiCall] at h
  simp only [callGeminiAPI, marshalGeminiRequest, h, hs, hd]
  simp [geminiCall]

theorem callGeminiAPI_of_decoded (post : Transport) (apiKey text : String)
    (reply : HttpReply) (g : GeminiResp)
    (h : post.answer (geminiCall apiKey text) = .ok reply) (hs : reply.StatusCode = 200)
    (hd : GeminiResp.decode reply.Body = .ok g) :
    callGeminiAPI post apiKey text =
      if 0 < g.Candidates.len ∧ 0 < (g.Candidates.index 0).Content.Parts.len then
        ⟨((g.Candidates.index 0).Content.Parts.index 0).Text, none, [geminiCall apiKey text]⟩
      else ⟨"", some ⟨"no summary found in Gemini response", none⟩, [geminiCall apiKey text]⟩ := by
  simp only [Transport.answer, geminiCall] at h
  simp only [callGeminiAPI, marshalGeminiRequest, h, hs, hd]
  simp [geminiCall]

theorem callGeminiAPI_fails (post : Transport) (apiKey text : String)
    (h : UpstreamFailure (post.answer (geminiCall apiKey text))) :
    ∃ e, (callGeminiAPI post apiKey text).err = some e := by
  cases ha : post.answer (geminiCall apiKey text) with
  | error e => exact ⟨_, by rw [callGeminiAPI_of_error post apiKey text e ha]⟩
  | ok reply =>
    rw [ha] at h
    by_cases hs : reply.StatusCode = 200
    · cases hd : GeminiResp.decode reply.Body with
      | error e => exact ⟨_, by rw [callGeminiAPI_of_undecodable post apiKey text reply e ha hs hd]⟩
      | ok g =>
        simp only [UpstreamFailure, hd] at h
        have hc : ¬ (0 < g.Candidates.len ∧ 0 < (g.Candidates.index 0).Content.Parts.len) := by
          rcases h with h | h | h
          · exact absurd hs h
          · omega
          · omega
        exact ⟨_, by rw [callGeminiAPI_of_decoded post apiKey text reply g ha hs hd, if_neg hc]⟩
    · exact ⟨_, by rw [callGeminiAPI_of_status post apiKey text reply ha hs]⟩

/-- C3: every reply of the handler, whatever the method, the body and the
    upstream outcome, carries the three CORS headers, each once and with its
    value: `Access-Control-Allow-Origin: *`,
    `Access-Control-Allow-Methods: POST, OPTIONS` and
    `Access-Control-Allow-Headers: Content-Type`. -/
theorem summarizeHandler_cors_headers (apiKey : String) (post : Transport) (r : Request) :
    ((summarizeHandler apiKey post r).response.header.Get "Access-Control-Allow-Origin" = "*" ∧
      (summarizeHandler apiKey post r).response.header.Get "Access-Control-Allow-Methods"
        = "POST, OPTIONS" ∧
      (summarizeHandler apiKey post r).response.header.Get "Access-Control-Allow-Headers"
        = "Content-Type") ∧
    (summarizeHandler apiKey post r).response.header.take 3 = corsHeader ∧
    ((summarizeHandler apiKey post r).response.header.drop 3).all
      (fun kv => kv.1 ≠ "Access-Control-Allow-Origin" ∧ kv.1 ≠ "Access-Control-Allow-Methods" ∧
        kv.1 ≠ "Access-Control-Allow-Headers") = true := by
  by_cases h1 : r.Method = "OPTIONS"
  · rw [handler_path_preflight apiKey post r h1]; decide
  by_cases h2 : r.Method = "POST"
  · cases hd : SummarizeRequest.decode r.Body with
    | error e => rw [handler_path_invalid apiKey post r e h2 hd]; decide
    | ok req =>
      by_cases ht : req.Text = ""
      · rw [handler_path_empty apiKey post r req h2 hd ht]; decide
      · cases he : (callGeminiAPI post apiKey req.Text).err with
        | some err =>
          rw [handler_path_failure apiKey post r req err h2 hd ht he]
          exact ⟨⟨rfl, rfl, rfl⟩, rfl, rfl⟩
        | none =>
          rw [handler_path_success apiKey post r req h2 hd ht he]
          exact ⟨⟨rfl, rfl, rfl⟩, rfl, rfl⟩
  · rw [handler_path_other apiKey post r h1 h2]; decide

/-- C6: a request with method OPTIONS gets status 200 with an empty body and
    only the CORS headers, whatever its body; nothing is logged and
    `http.Post` is not called, and the outcome does not depend on the body or
    on the upstream. -/
theorem summarizeHandler_options (apiKey : String) (post : Transport) (body : String) :
    summarizeHandler apiKey post ⟨"OPTIONS", body⟩ = ⟨⟨200, corsHeader, ""⟩, [], []⟩ := by
  rfl

/-- C7: a request whose method is neither OPTIONS nor POST gets status 405
    with the plain-text body "Only POST method is allowed" (and a newline),
    whatever its body, and `http.Post` is not called. -/
theorem summarizeHandler_method_not_allowed (apiKey : String) (post : Transport) (r : Request)
    (h1 : r.Method ≠ "OPTIONS") (h2 : r.Method ≠ "POST") :
    summarizeHandler apiKey post r = ⟨plainError 405 "Only POST method is allowed", [], []⟩ ∧
    (summarizeHandler apiKey post r).response.status = 405 ∧
    (summarizeHandler apiKey post r).response.header.Get "Content-Type"
      = "text/plain; charset=utf-8" ∧
    (summarizeHandler apiKey post r).calls = [] := by
  rw [handler_path_other apiKey post r h1 h2]
  exact ⟨rfl, rfl, rfl, rfl⟩

/-- Witness of C7: the methods GET and (lower-case) post. -/
theorem summarizeHandler_method_not_allowed_witness :
    (summarizeHandler "key" (fun _ _ _ => .error "unreachable") ⟨"GET", ""⟩
        = ⟨plainError 405 "Only POST method is allowed", [], []⟩ ∧
      (summarizeHandler "key" (fun _ _ _ => .error "unreachable")
        ⟨"post", "\x7b\"text\":\"hi\"\x7d"⟩).response.status = 405) := by
  have h1 := summarizeHandler_method_not_allowed "key" (fun _ _ _ => .error "unreachable")
    ⟨"GET", ""⟩ (by decide) (by decide)
  have h2 := summarizeHandler_method_not_allowed "key" (fun _ _ _ => .error "unreachable")
    ⟨"post", "\x7b\"text\":\"hi\"\x7d"⟩ (by decide) (by decide)
  exact ⟨h1.1, h2.2.1⟩

/-- C10: when the upstream reply has a status other than 200 (201 and 204
    included), `callGeminiAPI` returns an empty summary and an error whose
    text holds the status code and the whole reply body; the result is fixed
    by the status and the body as text, so the body is not decoded. -/
theorem callGeminiAPI_non200 (post : Transport) (apiKey text : String) (reply : HttpReply)
    (h : post.answer (geminiCall apiKey text) = .ok reply) (hs : reply.StatusCode ≠ 200) :
    callGeminiAPI post apiKey text =
      ⟨"", some ⟨"gemini API request failed with status " ++ toString reply.StatusCode ++ ": "
        ++ reply.Body, none⟩, [geminiCall apiKey text]⟩ ∧
    (callGeminiAPI post apiKey text).summary = "" ∧
    (callGeminiAPI post apiKey text).err ≠ none := by
  rw [callGeminiAPI_of_status post apiKey text reply h hs]
  exact ⟨rfl, rfl, by simp⟩

/-- Witness of C10: status 201 with a body that would decode to a candidate,
    and status 204 with an empty body. -/
theorem callGeminiAPI_non200_witness :
    callGeminiAPI
        (mockReply 201 "\x7b\"candidates\":[\x7b\"content\":\x7b\"parts\":[\x7b\"text\":\"A greeting.\"\x7d]\x7d\x7d]\x7d")
        "key" "Hello world" =
      ⟨"", some ⟨"gemini API request failed with status 201: \x7b\"candidates\":[\x7b\"content\":\x7b\"parts\":[\x7b\"text\":\"A greeting.\"\x7d]\x7d\x7d]\x7d", none⟩,
        [geminiCall "key" "Hello world"]⟩ ∧
    (callGeminiAPI (mockReply 204 "") "key" "Hello world").err =
      some ⟨"gemini API request failed with status 204: ", none⟩ := by
  have h1 := callGeminiAPI_non200
    (mockReply 201 "\x7b\"candidates\":[\x7b\"content\":\x7b\"parts\":[\x7b\"text\":\"A greeting.\"\x7d]\x7d\x7d]\x7d")
    "key" "Hello world" ⟨201, _⟩ rfl (by decide)
  have h2 := callGeminiAPI_non200 (mockReply 204 "") "key" "Hello world" ⟨204, _⟩ rfl (by decide)
  refine ⟨?_, ?_⟩
  · rw [h1.1]; decide
  · rw [h2.1]; decide

/-- C8: for a reply with status 200 whose body decodes to `g`,
    `callGeminiAPI` returns the error "no summary found" (in full: "no summary
    found in Gemini response") exactly when `g` has no candidate or its first
    candidate has no part; otherwise it returns, without error, the text of
    the first part of the first candidate, whatever the other candidates and
    parts are; that candidate and that part are the heads of the decoded
    slices. -/
theorem callGeminiAPI_first_candidate (post : Transport) (apiKey text : String)
    (reply : HttpReply) (g : GeminiResp)
    (h : post.answer (geminiCall apiKey text) = .ok reply) (hs : reply.StatusCode = 200)
    (hd : GeminiResp.decode reply.Body = .ok g) :
    ((callGeminiAPI post apiKey text).err = some ⟨"no summary found in Gemini response", none⟩ ↔
      (g.Candidates.len = 0 ∨ (g.Candidates.index 0).Content.Parts.len = 0)) ∧
    ((g.Candidates.len = 0 ∨ (g.Candidates.index 0).Content.Parts.len = 0) →
      callGeminiAPI post apiKey text =
        ⟨"", some ⟨"no summary found in Gemini response", none⟩, [geminiCall apiKey text]⟩) ∧
    (¬ (g.Candidates.len = 0 ∨ (g.Candidates.index 0).Content.Parts.len = 0) →
      callGeminiAPI post apiKey text =
        ⟨((g.Candidates.index 0).Content.Parts.index 0).Text, none,
          [geminiCall apiKey text]⟩ ∧
      g.Candidates.data.head? = some (g.Candidates.index 0) ∧
      (g.Candidates.index 0).Content.Parts.data.head?
        = some ((g.Candidates.index 0).Content.Parts.index 0)) := by
  have hwf := geminiResp_decode_length reply.Body g hd
  have hidx : ¬ (g.Candidates.len = 0 ∨ (g.Candidates.index 0).Content.Parts.len = 0) →
      g.Candidates.data.head? = some (g.Candidates.index 0) ∧
      (g.Candidates.index 0).Content.Parts.data.head?
        = some ((g.Candidates.index 0).Content.Parts.index 0) := by
    intro hn
    have h0 : 0 < g.Candidates.len := by omega
    cases hdata : g.Candidates.data with
    | nil =>
      have := hwf.1
      rw [hdata] at this
      simp at this
      omega
    | cons c cs =>
      have hc : g.Candidates.index 0 = c := by simp [GoSlice.index, hdata]
      have hp := hwf.2 c (by rw [hdata]; exact List.mem_cons_self _ _)
      rw [hc] at hn ⊢
      refine ⟨rfl, ?_⟩
      cases hparts : c.Content.Parts.data with
      | nil =>
        rw [hparts] at hp
        simp at hp
        omega
      | cons q qs => simp [GoSlice.index, hparts]
  rw [callGeminiAPI_of_decoded post apiKey text reply g h hs hd]
  by_cases hc : 0 < g.Candidates.len ∧ 0 < (g.Candidates.index 0).Content.Parts.len
  · have hn : ¬ (g.Candidates.len = 0 ∨ (g.Candidates.index 0).Content.Parts.len = 0) := by
      omega
    rw [if_pos hc]
    exact ⟨⟨fun he => by simp at he, fun hx => absurd hx hn⟩, fun hx => absurd hx hn,
      fun hx => ⟨rfl, hidx hx⟩⟩
  · have hn : g.Candidates.len = 0 ∨ (g.Candidates.index 0).Content.Parts.len = 0 := by
      omega
    rw [if_neg hc]
    exact ⟨⟨fun _ => hn, fun _ => rfl⟩, fun _ => rfl, fun hx => absurd hn hx⟩

/-- Witness of C8: two candidates, the first with two parts, give the text of
    the first part of the first candidate; an empty candidate list gives the
    error. -/
theorem callGeminiAPI_first_candidate_witness :
    callGeminiAPI
        (mockReply 200 "\x7b\"candidates\":[\x7b\"content\":\x7b\"parts\":[\x7b\"text\":\"one\"\x7d,\x7b\"text\":\"two\"\x7d]\x7d\x7d,\x7b\"content\":\x7b\"parts\":[\x7b\"text\":\"three\"\x7d]\x7d\x7d]\x7d")
        "key" "Hello world" = ⟨"one", none, [geminiCall "key" "Hello world"]⟩ ∧
    callGeminiAPI (mockReply 200 "\x7b\"candidates\":[]\x7d") "key" "Hello world" =
      ⟨"", some ⟨"no summary found in Gemini response", none⟩,
        [geminiCall "key" "Hello world"]⟩ := by
  refine ⟨?_, ?_⟩
  · exact ((callGeminiAPI_first_candidate
      (mockReply 200 "\x7b\"candidates\":[\x7b\"content\":\x7b\"parts\":[\x7b\"text\":\"one\"\x7d,\x7b\"text\":\"two\"\x7d]\x7d\x7d,\x7b\"content\":\x7b\"parts\":[\x7b\"text\":\"three\"\x7d]\x7d\x7d]\x7d")
      "key" "Hello world" ⟨200, _⟩
      ⟨⟨[⟨⟨⟨[⟨"one"⟩, ⟨"two"⟩], 2⟩⟩⟩, ⟨⟨⟨[⟨"three"⟩], 1⟩⟩⟩], 2⟩⟩ rfl rfl rfl).2.2
        (by decide)).1
  · exact (callGeminiAPI_first_candidate (mockReply 200 "\x7b\"candidates\":[]\x7d")
      "key" "Hello world" ⟨200, _⟩ ⟨⟨[], 0⟩⟩ rfl rfl rfl).2.1 (by decide)

/-- C9: for every key and text, the one request that `callGeminiAPI` sends has
    the body `{"contents":[{"parts":[{"text":` prompt `}]}]}`, where the
    prompt is "Summarize the following text in 200 words:\n\n" followed by the
    text; decoding that body gives one content with one part whose text is the
    prompt. -/
theorem callGeminiAPI_request_body (post : Transport) (apiKey text : String) :
    (callGeminiAPI post apiKey text).calls =
      [⟨"https://generativelanguage.googleapis.com/v1beta/models/gemini-2.0-flash:generateContent?key="
          ++ apiKey,
        "application/json",
        "\x7b\"contents\":[\x7b\"parts\":[\x7b\"text\":"
          ++ quote ("Summarize the following text in 200 words:\n\n" ++ text)
          ++ "\x7d]\x7d]\x7d"⟩] ∧
    readValue ("\x7b\"contents\":[\x7b\"parts\":[\x7b\"text\":"
        ++ quote ("Summarize the following text in 200 words:\n\n" ++ text) ++ "\x7d]\x7d]\x7d") =
      .ok (.obj [("contents", .arr [.obj [("parts", .arr [.obj
        [("text", .str ("Summarize the following text in 200 words:\n\n" ++ text))]])]])]) := by
  exact ⟨callGeminiAPI_calls post apiKey text, readValue_geminiRequest _⟩

/-- C2: for a POST request with a non-empty text, every upstream failure (no
    reply, a status other than 200, an undecodable body, no candidate or no
    part) gives status 500 with the message "Failed to generate summary"; the
    reply is the same for any two failing upstreams, so nothing of the
    upstream error reaches the client. The error goes to the log. -/
theorem summarizeHandler_upstream_failure (apiKey : String) (post1 post2 : Transport)
    (r : Request) (req : SummarizeRequest) (hm : r.Method = "POST")
    (hd : SummarizeRequest.decode r.Body = .ok req) (ht : req.Text ≠ "")
    (h1 : UpstreamFailure (post1.answer (geminiCall apiKey req.Text)))
    (h2 : UpstreamFailure (post2.answer (geminiCall apiKey req.Text))) :
    (summarizeHandler apiKey post1 r).response = plainError 500 "Failed to generate summary" ∧
    (summarizeHandler apiKey post1 r).response = (summarizeHandler apiKey post2 r).response ∧
    (summarizeHandler apiKey post1 r).logged.map some
      = [(callGeminiAPI post1 apiKey req.Text).err] := by
  obtain ⟨e1, he1⟩ := callGeminiAPI_fails post1 apiKey req.Text h1
  obtain ⟨e2, he2⟩ := callGeminiAPI_fails post2 apiKey req.Text h2
  rw [handler_path_failure apiKey post1 r req e1 hm hd ht he1,
    handler_path_failure apiKey post2 r req e2 hm hd ht he2, he1]
  exact ⟨rfl, rfl, rfl⟩

/-- Witness of C2: an upstream that answers 500 with a body of its own and an
    upstream that answers 200 with an empty candidate list get the same
    reply. -/
theorem summarizeHandler_upstream_failure_witness :
    (summarizeHandler "key" (mockReply 500 "quota exceeded for project 42")
        ⟨"POST", "\x7b\"text\":\"Hello world\"\x7d"⟩).response
      = ⟨500, corsHeader ++ [("Content-Type", "text/plain; charset=utf-8"),
          ("X-Content-Type-Options", "nosniff")], "Failed to generate summary\n"⟩ ∧
    (summarizeHandler "key" (mockReply 500 "quota exceeded for project 42")
        ⟨"POST", "\x7b\"text\":\"Hello world\"\x7d"⟩).response
      = (summarizeHandler "key" (mockReply 200 "\x7b\"candidates\": []\x7d")
        ⟨"POST", "\x7b\"text\":\"Hello world\"\x7d"⟩).response := by
  have h := summarizeHandler_upstream_failure "key"
    (mockReply 500 "quota exceeded for project 42") (mockReply 200 "\x7b\"candidates\": []\x7d")
    ⟨"POST", "\x7b\"text\":\"Hello world\"\x7d"⟩ ⟨"Hello world"⟩ rfl rfl (by decide)
    (Or.inl (by decide)) (Or.inr (Or.inl rfl))
  exact ⟨h.1, h.2.1⟩

/-- C1, the claim as stated, fails: for the body `{"text":"Hello world"}` and
    an upstream that answers with the candidate "A greeting.", the reply body
    is not `{"summary":"A greeting."}`; it is that text followed by the
    newline that `Encode` writes. -/
theorem summarizeHandler_success_body_counterexample :
    (summarizeHandler "key"
        (mockReply 200 "\x7b\"candidates\":[\x7b\"content\":\x7b\"parts\":[\x7b\"text\":\"A greeting.\"\x7d]\x7d\x7d]\x7d")
        ⟨"POST", "\x7b\"text\":\"Hello world\"\x7d"⟩).response.body
      ≠ "\x7b\"summary\":\"A greeting.\"\x7d" ∧
    (summarizeHandler "key"
        (mockReply 200 "\x7b\"candidates\":[\x7b\"content\":\x7b\"parts\":[\x7b\"text\":\"A greeting.\"\x7d]\x7d\x7d]\x7d")
        ⟨"POST", "\x7b\"text\":\"Hello world\"\x7d"⟩).response.body
      = "\x7b\"summary\":\"A greeting.\"\x7d\n" := by
  decide

/-- C1, amended: for a POST body `{"text": s}` with non-empty `s` (and for
    every body that decodes to the text `s`), when `callGeminiAPI` succeeds
    with the text `t` the handler replies with status 200, the header
    `Content-Type: application/json`, and a body that is the JSON
    serialization of `SummarizeResponse{Summary: t}` followed by one newline;
    decoding that body gives an object whose only member `summary` is `t`. -/
theorem summarizeHandler_success (apiKey : String) (post : Transport) (s t : String)
    (calls : List Call) (hs : s ≠ "") (hup : callGeminiAPI post apiKey s = ⟨t, none, calls⟩) :
    summarizeHandler apiKey post ⟨"POST", "\x7b\"text\":" ++ quote s ++ "\x7d"⟩ =
      ⟨⟨200, corsHeader ++ [("Content-Type", "application/json")],
        "\x7b\"summary\":" ++ quote t ++ "\x7d" ++ "\n"⟩, [], calls⟩ ∧
    (∀ body, SummarizeRequest.decode body = .ok ⟨s⟩ →
      summarizeHandler apiKey post ⟨"POST", body⟩ =
        ⟨⟨200, corsHeader ++ [("Content-Type", "application/json")],
          "\x7b\"summary\":" ++ quote t ++ "\x7d" ++ "\n"⟩, [], calls⟩) ∧
    Header.Get (corsHeader ++ [("Content-Type", "application/json")]) "Content-Type"
      = "application/json" ∧
    readValue ("\x7b\"summary\":" ++ quote t ++ "\x7d" ++ "\n")
      = .ok (.obj [("summary", .str t)]) := by
  have hgen : ∀ body, SummarizeRequest.decode body = .ok ⟨s⟩ →
      summarizeHandler apiKey post ⟨"POST", body⟩ =
        ⟨⟨200, corsHeader ++ [("Content-Type", "application/json")],
          "\x7b\"summary\":" ++ quote t ++ "\x7d" ++ "\n"⟩, [], calls⟩ := by
    intro body hd
    have he : (callGeminiAPI post apiKey (SummarizeRequest.mk s).Text).err = none := by
      show (callGeminiAPI post apiKey s).err = none
      rw [hup]
    rw [handler_path_success apiKey post ⟨"POST", body⟩ ⟨s⟩ rfl hd hs he]
    show (⟨⟨200, _, SummarizeResponse.marshal ⟨(callGeminiAPI post apiKey s).summary⟩ ++ "\n"⟩,
      [], (callGeminiAPI post apiKey s).calls⟩ : Outcome) = _
    rw [hup]
    rfl
  exact ⟨hgen _ (decode_request s), hgen, rfl, readValue_response t⟩

/-- Witness of C1 (amended): the scenario of the specification. -/
theorem summarizeHandler_success_witness :
    summarizeHandler "key"
        (mockReply 200 "\x7b\"candidates\":[\x7b\"content\":\x7b\"parts\":[\x7b\"text\":\"A greeting.\"\x7d]\x7d\x7d]\x7d")
        ⟨"POST", "\x7b\"text\":" ++ quote "Hello world" ++ "\x7d"⟩ =
      ⟨⟨200, corsHeader ++ [("Content-Type", "application/json")],
        "\x7b\"summary\":" ++ quote "A greeting." ++ "\x7d" ++ "\n"⟩, [],
        [geminiCall "key" "Hello world"]⟩ ∧
    ("\x7b\"text\":" ++ quote "Hello world" ++ "\x7d" = "\x7b\"text\":\"Hello world\"\x7d" ∧
      "\x7b\"summary\":" ++ quote "A greeting." ++ "\x7d" ++ "\n"
        = "\x7b\"summary\":\"A greeting.\"\x7d\n") := by
  have h := summarizeHandler_success "key"
    (mockReply 200 "\x7b\"candidates\":[\x7b\"content\":\x7b\"parts\":[\x7b\"text\":\"A greeting.\"\x7d]\x7d\x7d]\x7d")
    "Hello world" "A greeting." [geminiCall "key" "Hello world"] (by decide) (by decide)
  exact ⟨h.1, by decide, by decide⟩

/-- C4, the claim as stated, fails: the body `{"text":"","Text":"x"}` is
    `{"text": ""}` extended with another field, yet the key `Text` is matched
    to the same struct field without regard to case, the decoded text is "x",
    the upstream is called and the status is not 400. -/
theorem summarizeHandler_text_required_counterexample :
    (summarizeHandler "key"
        (mockReply 200 "\x7b\"candidates\":[\x7b\"content\":\x7b\"parts\":[\x7b\"text\":\"A greeting.\"\x7d]\x7d\x7d]\x7d")
        ⟨"POST", "\x7b\"text\":\"\",\"Text\":\"x\"\x7d"⟩).response.status = 200 ∧
    (summarizeHandler "key"
        (mockReply 200 "\x7b\"candidates\":[\x7b\"content\":\x7b\"parts\":[\x7b\"text\":\"A greeting.\"\x7d]\x7d\x7d]\x7d")
        ⟨"POST", "\x7b\"text\":\"\",\"Text\":\"x\"\x7d"⟩).calls = [geminiCall "key" "x"] := by
  decide

/-- C4, amended: a POST request whose body decodes to a `SummarizeRequest`
    with an empty text gets status 400 with the message "Text field is
    required", and `http.Post` is not called; in particular so does every
    body whose first JSON value is an object in which each member whose key
    matches `text` (exactly or under case folding) has the value `""` or
    `null`, whatever its other members are. -/
theorem summarizeHandler_text_required (apiKey : String) (post : Transport) (body : String) :
    (SummarizeRequest.decode body = .ok ⟨""⟩ →
      summarizeHandler apiKey post ⟨"POST", body⟩
        = ⟨plainError 400 "Text field is required", [], []⟩) ∧
    (∀ ms, readValue body = .ok (.obj ms) →
      (∀ kv ∈ ms, matchesField "text" kv.1 = true → kv.2 = .str "" ∨ kv.2 = .null) →
      summarizeHandler apiKey post ⟨"POST", body⟩
        = ⟨plainError 400 "Text field is required", [], []⟩) := by
  have h1 : SummarizeRequest.decode body = .ok ⟨""⟩ →
      summarizeHandler apiKey post ⟨"POST", body⟩
        = ⟨plainError 400 "Text field is required", [], []⟩ :=
    fun hd => handler_path_empty apiKey post ⟨"POST", body⟩ ⟨""⟩ rfl hd rfl
  refine ⟨h1, fun ms hr hms => h1 ?_⟩
  simp only [SummarizeRequest.decode, hr, decodeStruct]
  exact foldlM_blank ms hms

/-- Witness of C4 (amended): `{"text": ""}` with two other fields, and a body
    without a `text` field. -/
theorem summarizeHandler_text_required_witness :
    summarizeHandler "key" (mockDown "unreachable")
        ⟨"POST", "\x7b\"text\": \"\", \"lang\": \"en\", \"n\": [1, 2]\x7d"⟩
      = ⟨plainError 400 "Text field is required", [], []⟩ ∧
    summarizeHandler "key" (mockDown "unreachable") ⟨"POST", "\x7b\"lang\": \"en\"\x7d"⟩
      = ⟨plainError 400 "Text field is required", [], []⟩ := by
  refine ⟨?_, ?_⟩
  · exact (summarizeHandler_text_required "key" (mockDown "unreachable")
      "\x7b\"text\": \"\", \"lang\": \"en\", \"n\": [1, 2]\x7d").2
      [("text", .str ""), ("lang", .str "en"), ("n", .arr [.num "1", .num "2"])] rfl
      (by
        intro kv hkv hm
        simp only [List.mem_cons, List.mem_singleton, List.mem_nil_iff, or_false] at hkv
        rcases hkv with h | h | h <;> subst h
        · exact Or.inl rfl
        · exact absurd hm (by decide)
        · exact absurd hm (by decide))
  · exact (summarizeHandler_text_required "key" (mockDown "unreachable")
      "\x7b\"lang\": \"en\"\x7d").1 rfl

/-- C5, the claim as stated, fails: the body `{"text":"hi"}xyz` is a
    well-formed value followed by bytes that are not JSON, yet `Decode` reads
    the first value only, the upstream is called and the status is 200; and
    the body `{"text":null}`, whose text is not a string, gets the message
    "Text field is required". -/
theorem summarizeHandler_invalid_body_counterexample :
    ((summarizeHandler "key"
        (mockReply 200 "\x7b\"candidates\":[\x7b\"content\":\x7b\"parts\":[\x7b\"text\":\"A greeting.\"\x7d]\x7d\x7d]\x7d")
        ⟨"POST", "\x7b\"text\":\"hi\"\x7dxyz"⟩).response.status = 200 ∧
      (summarizeHandler "key"
        (mockReply 200 "\x7b\"candidates\":[\x7b\"content\":\x7b\"parts\":[\x7b\"text\":\"A greeting.\"\x7d]\x7d\x7d]\x7d")
        ⟨"POST", "\x7b\"text\":\"hi\"\x7dxyz"⟩).calls = [geminiCall "key" "hi"]) ∧
    summarizeHandler "key" (mockDown "unreachable") ⟨"POST", "\x7b\"text\":null\x7d"⟩
      = ⟨plainError 400 "Text field is required", [], []⟩ := by
  decide

/-- C5, amended: a POST request gets status 400 with the message "Invalid
    request body", and `http.Post` is not called, when the scanner rejects
    the first JSON value of the body (an empty body, a syntax error), when
    the body ends inside an open object or array, when the first value is
    neither an object nor `null`, or when a member whose key matches `text`
    has a value that is neither a string nor `null`. What follows the first
    complete value is not read. -/
theorem summarizeHandler_invalid_body (apiKey : String) (post : Transport) (body : String)
    (h : (∃ e, readValue body = .error e) ∨
      (∃ f stack mode, body.data.foldl step start = .run (f :: stack) mode) ∨
      (∃ v, readValue body = .ok v ∧ v ≠ .null ∧ ∀ ms, v ≠ .obj ms) ∨
      (∃ ms k v, readValue body = .ok (.obj ms) ∧ (k, v) ∈ ms ∧ matchesField "text" k = true ∧
        v ≠ .null ∧ ∀ s, v ≠ .str s)) :
    summarizeHandler apiKey post ⟨"POST", body⟩
      = ⟨plainError 400 "Invalid request body", [], []⟩ := by
  have hd : ∃ e, SummarizeRequest.decode body = .error e := by
    rcases h with ⟨e, he⟩ | ⟨f, stack, mode, hc⟩ | ⟨v, hv, hn, ho⟩ | ⟨ms, k, v, hv, hmem, hk, hn, hs⟩
    · exact ⟨e, by simp [SummarizeRequest.decode, he]⟩
    · obtain ⟨e, he⟩ := readValue_cut_short body f stack mode hc
      exact ⟨e, by simp [SummarizeRequest.decode, he]⟩
    · refine ⟨.typeMismatch, ?_⟩
      simp only [SummarizeRequest.decode, hv]
      cases v with
      | null => exact absurd rfl hn
      | obj ms => exact absurd rfl (ho ms)
      | bool b => rfl
      | num raw => rfl
      | str s => rfl
      | arr elems => rfl
    · obtain ⟨e, he⟩ := foldlM_mismatch ms k v hmem hk hn hs ⟨""⟩
      exact ⟨e, by simp only [SummarizeRequest.decode, hv, decodeStruct, he]⟩
  obtain ⟨e, he⟩ := hd
  exact handler_path_invalid apiKey post ⟨"POST", body⟩ e rfl he

/-- Witness of C5 (amended): an empty body, a truncated object, an array, and
    a `text` that is a number. -/
theorem summarizeHandler_invalid_body_witness :
    summarizeHandler "key" (mockDown "unreachable") ⟨"POST", ""⟩
      = ⟨plainError 400 "Invalid request body", [], []⟩ ∧
    summarizeHandler "key" (mockDown "unreachable") ⟨"POST", "\x7b\"text\":\"hi\""⟩
      = ⟨plainError 400 "Invalid request body", [], []⟩ ∧
    summarizeHandler "key" (mockDown "unreachable") ⟨"POST", "[\"hi\"]"⟩
      = ⟨plainError 400 "Invalid request body", [], []⟩ ∧
    summarizeHandler "key" (mockDown "unreachable") ⟨"POST", "\x7b\"text\":5\x7d"⟩
      = ⟨plainError 400 "Invalid request body", [], []⟩ := by
  refine ⟨?_, ?_, ?_, ?_⟩
  · exact summarizeHandler_invalid_body "key" (mockDown "unreachable") ""
      (Or.inl ⟨.eof, rfl⟩)
  · exact summarizeHandler_invalid_body "key" (mockDown "unreachable") "\x7b\"text\":\"hi\""
      (Or.inr (Or.inl ⟨.obj [("text", .str "hi")] none, [], .endValue, rfl⟩))
  · exact summarizeHandler_invalid_body "key" (mockDown "unreachable") "[\"hi\"]"
      (Or.inr (Or.inr (Or.inl ⟨.arr [.str "hi"], rfl, by simp, by simp⟩)))
  · exact summarizeHandler_invalid_body "key" (mockDown "unreachable") "\x7b\"text\":5\x7d"
      (Or.inr (Or.inr (Or.inr ⟨[("text", .num "5")], "text", .num "5", rfl, by simp,
        by decide, by simp, by simp⟩)))

end Backend
